import Mathlib

/-!
Verification development for the Bible-study PWA repository.

The repository ships two service-worker implementations:
* `src/sw.js` — the standalone worker file (namespace `SrcSW` below);
* the full `sw.js` listing embedded at the end of `src/docs/PWA-TESTING.md`
  (namespace `DocSW` below).
Both are translated here into pure Lean functions over an explicit model of
the Cache Storage API and of the network.  The auxiliary JSON content
validator (the unnamed Node script) is translated in namespace `Validator`.
-/

namespace BibleStudy

/-! ## Character-list string helpers (JS `startsWith`, `includes`, `endsWith`) -/

/-- Model of `String.prototype.startsWith` on char lists (`prefixChars needle hay`). -/
def prefixChars : List Char → List Char → Bool
  | [], _ => true
  | _ :: _, [] => false
  | a :: as, b :: bs => a = b && prefixChars as bs

/-- Model of `String.prototype.includes` on char lists (`infixChars needle hay`). -/
def infixChars (needle : List Char) : List Char → Bool
  | [] => prefixChars needle []
  | b :: bs => prefixChars needle (b :: bs) || infixChars needle bs

/-- The JS `s.startsWith(pre)`. -/
def strStartsWith (s pre : String) : Bool := prefixChars pre.data s.data

/-- The JS `s.includes(needle)`. -/
def strIncludes (s needle : String) : Bool := infixChars needle.data s.data

/-- The JS `s.endsWith(suf)`. -/
def strEndsWith (s suf : String) : Bool := prefixChars suf.data.reverse s.data.reverse

/-! ## Model of requests, responses, the network and the Cache Storage API -/

/-- An HTTP response as the service worker observes it: its status code, its
`Response.type` (`"basic"` for same-origin, `"cors"`/`"opaque"` for
cross-origin fetches) and an opaque body used to tell responses apart.
`clone()` is the identity in this pure model. -/
structure Response where
  status : Nat
  rtype : String
  body : String
deriving DecidableEq, Repr

/-- Result of a network `fetch`: a resolved response or a rejection. -/
inductive NetResult where
  | ok (resp : Response)
  | err
deriving DecidableEq, Repr

/-- The network is a function from URL to fetch outcome. -/
def Net : Type := String → NetResult

/-- A request as the fetch handlers inspect it: origin, path and
`Request.destination` (`"document"` for full-page navigations). -/
structure Request where
  origin : String
  pathname : String
  destination : String
deriving DecidableEq, Repr

/-- The full URL string of a request. -/
def Request.url (r : Request) : String := r.origin ++ r.pathname

/-- One named cache: an association of URL keys to stored responses
(the Cache API matches entries by request URL). -/
def CacheStore : Type := List (String × Response)

/-- The whole Cache Storage: named stores, in creation order. -/
def CacheState : Type := List (String × CacheStore)

/-- The Cache API `cache.match(request)` against a single store. -/
def storeLookup (st : CacheStore) (u : String) : Option Response :=
  match st with
  | [] => none
  | (k, v) :: rest => if k = u then some v else storeLookup rest u

/-- The Cache API `cache.put(request, response)`: replace the entry for the URL, or append. -/
def storePut (st : CacheStore) (u : String) (resp : Response) : CacheStore :=
  match st with
  | [] => [(u, resp)]
  | (k, v) :: rest => if k = u then (u, resp) :: rest else (k, v) :: storePut rest u resp

/-- The Cache API `caches.match(request)`: search every store, in order. -/
def cachesMatch (cs : CacheState) (u : String) : Option Response :=
  match cs with
  | [] => none
  | (_, st) :: rest =>
    match storeLookup st u with
    | some r => some r
    | none => cachesMatch rest u

/-- The Cache API `caches.open(name)`: creates the store when absent. -/
def openCache (cs : CacheState) (name : String) : CacheState :=
  match cs with
  | [] => [(name, [])]
  | (k, st) :: rest => if k = name then (k, st) :: rest else (k, st) :: openCache rest name

/-- Entry lookup inside the named store of a cache state. -/
def entryAt (cs : CacheState) (name u : String) : Option Response :=
  match cs with
  | [] => none
  | (k, st) :: rest => if k = name then storeLookup st u else entryAt rest name u

/-- Opening `caches.open(name)` followed by `cache.put(request, response)`. -/
def cachePutIn (cs : CacheState) (name u : String) (resp : Response) : CacheState :=
  match cs with
  | [] => [(name, storePut [] u resp)]
  | (k, st) :: rest =>
    if k = name then (k, storePut st u resp) :: rest else (k, st) :: cachePutIn rest name u resp

/-! ## Install -/

/-- Fetch every URL of a precache list; `none` when any fetch rejects or
returns a non-200 status.

Modelled from the spec: `Cache.addAll` is a platform primitive whose body is
not in this repository; per the spec ("If any precache fetch returns a
non-200 status or fails, the overall install operation fails") it rejects as
soon as any listed asset cannot be fetched with status 200, and commits the
batch only when every fetch succeeded. -/
def fetchAll (net : Net) : List String → Option (List (String × Response))
  | [] => some []
  | u :: rest =>
    match net u with
    | .ok resp =>
      if resp.status = 200 then
        match fetchAll net rest with
        | some tail => some ((u, resp) :: tail)
        | none => none
      else none
    | .err => none

/-- Write a fetched batch into a named store. -/
def putAll (cs : CacheState) (name : String) : List (String × Response) → CacheState
  | [] => cs
  | (u, resp) :: rest => putAll (cachePutIn cs name u resp) name rest

/-- Outcome of running an install handler: whether the `waitUntil` promise
resolved, whether the handler itself invoked `self.skipWaiting()`, and the
resulting cache state. -/
structure InstallOutcome where
  succeeded : Bool
  skipWaitingCalled : Bool
  caches : CacheState

/-- Lifecycle phase a freshly installed worker enters.

Modelled from the spec: the browser lifecycle is not repository code; per the
spec (§4.1, §4.3) a worker whose install failed is discarded; otherwise it
activates immediately when `skipWaiting` was called, waits when another
instance still controls pages, and activates when none does. -/
inductive SWPhase where
  | discarded
  | waiting
  | activating
deriving DecidableEq, Repr

def postInstallPhase (out : InstallOutcome) (otherControllerActive : Bool) : SWPhase :=
  if !out.succeeded then .discarded
  else if out.skipWaitingCalled then .activating
  else if otherControllerActive then .waiting
  else .activating

namespace SrcSW

/-- From `src/sw.js` line 4. -/
def CACHE_NAME : String := "bible-study-v1"

/-- From `src/sw.js` lines 5-12. -/
def ASSETS_TO_CACHE : List String :=
  ["/", "/index.html", "/manifest.webmanifest", "/assets/icon-192.svg",
   "/assets/icon-512.svg", "https://cdn.tailwindcss.com"]

/-- From `src/sw.js` lines 15-25: `caches.open(CACHE_NAME)` then
`cache.addAll(ASSETS_TO_CACHE)` then `self.skipWaiting()`; the chain is the
argument of `event.waitUntil`, so an `addAll` rejection fails the install and
skips the `skipWaiting` step. -/
def install (net : Net) (cs : CacheState) : InstallOutcome :=
  let cs1 := openCache cs CACHE_NAME
  match fetchAll net ASSETS_TO_CACHE with
  | some batch => ⟨true, true, putAll cs1 CACHE_NAME batch⟩
  | none => ⟨false, false, cs1⟩

/-- From `src/sw.js` lines 28-44: delete every cache whose name differs from
`CACHE_NAME` (no prefix check), then claim clients. -/
def activate (cs : CacheState) : CacheState :=
  cs.filter (fun e => !(e.1 != CACHE_NAME))

end SrcSW

namespace DocSW

/-- Embedded sw.js (PWA-TESTING.md) line 212. -/
def CACHE_VERSION : String := "v1"

/-- Embedded sw.js line 213: `bible-study-${CACHE_VERSION}`. -/
def CACHE_NAME : String := "bible-study-" ++ CACHE_VERSION

/-- Embedded sw.js lines 217-226. -/
def PRECACHE_ASSETS : List String :=
  ["/", "/index.html", "/manifest.webmanifest", "https://cdn.tailwindcss.com",
   "/theology/commentary.json", "/xrefs/John.json", "/xrefs/Psalms.json",
   "/xrefs/John-3-16.json"]

/-- Embedded sw.js lines 229-241: like the `src/sw.js` install but with a
final `.catch` that only logs, so the `waitUntil` promise always resolves:
the install succeeds even when `addAll` rejected, and `skipWaiting` is never
invoked here. -/
def install (net : Net) (cs : CacheState) : InstallOutcome :=
  let cs1 := openCache cs CACHE_NAME
  match fetchAll net PRECACHE_ASSETS with
  | some batch => ⟨true, false, putAll cs1 CACHE_NAME batch⟩
  | none => ⟨true, false, cs1⟩

/-- Embedded sw.js lines 244-260: delete only caches whose name starts with
`bible-study-` and differs from `CACHE_NAME`, then claim clients. -/
def activate (cs : CacheState) : CacheState :=
  cs.filter (fun e => !(strStartsWith e.1 "bible-study-" && e.1 != CACHE_NAME))

end DocSW

/-! ## JSON values and JS truthiness -/

/-- A parsed JSON value (`JSON.parse` never yields `undefined`). -/
inductive Json where
  | str (s : String)
  | num (n : Int)
  | bool (b : Bool)
  | null
  | arr (xs : List Json)
  | obj (fields : List (String × Json))

mutual

/-- Structural equality of JSON values. -/
def Json.beq : Json → Json → Bool
  | .str a, .str b => a = b
  | .num a, .num b => a = b
  | .bool a, .bool b => a = b
  | .null, .null => true
  | .arr xs, .arr ys => Json.beqList xs ys
  | .obj xs, .obj ys => Json.beqFields xs ys
  | _, _ => false

def Json.beqList : List Json → List Json → Bool
  | [], [] => true
  | x :: xs, y :: ys => Json.beq x y && Json.beqList xs ys
  | _, _ => false

def Json.beqFields : List (String × Json) → List (String × Json) → Bool
  | [], [] => true
  | (k, x) :: xs, (l, y) :: ys => k = l && Json.beq x y && Json.beqFields xs ys
  | _, _ => false

end

instance : BEq Json := ⟨Json.beq⟩

/-- JS truthiness of a JSON value (`NaN` does not arise from `JSON.parse`). -/
def truthy : Json → Bool
  | .str s => s ≠ ""
  | .num n => n ≠ 0
  | .bool b => b
  | .null => false
  | .arr _ => true
  | .obj _ => true

/-- Truthiness of a possibly-`undefined` value. -/
def truthyO : Option Json → Bool
  | none => false
  | some v => truthy v

/-- Own-property lookup in a JS plain object. -/
def Json.lookupField : List (String × Json) → String → Option Json
  | [], _ => none
  | (k, v) :: rest, name => if k = name then some v else Json.lookupField rest name

/-- Property access `v.name` on a non-`null` JSON value: a field of an
object, `undefined` otherwise (access on `null` throws and is modelled at
each call site). -/
def getField : Json → String → Option Json
  | .obj fields, name => Json.lookupField fields name
  | _, _ => none

/-! ## Message handler (identical in `src/sw.js` lines 94-98 and in the
embedded sw.js lines 327-331) -/

/-- Model of `if (event.data && event.data.type === 'SKIP_WAITING') self.skipWaiting()`:
whether a message with the given data makes the worker invoke
`skipWaiting`.  The short-circuit `&&` guards the property access, so no
branch throws. -/
def messageInvokesSkipWaiting (data : Json) : Bool :=
  truthy data && (getField data "type" == some (Json.str "SKIP_WAITING"))

/-! ## Fetch handlers -/

/-- What one run of a fetch handler produced: the response handed to
`event.respondWith` (`none` when the promise resolved without a `Response`,
which the browser turns into a network error for the caller), the resulting
cache state, and the URLs for which a network `fetch` was issued. -/
structure FetchOut where
  response : Option Response
  caches : CacheState
  netRequests : List String

namespace SrcSW

/-- From `src/sw.js` lines 47-91: `caches.match` first; on a hit return the cached
response with no network traffic; on a miss `fetch`, return non-200 or
non-`basic` responses uncached, cache 200 `basic` responses when the URL
starts with the worker origin or contains `.json`, and on a network rejection
fall back to the cached `/index.html` for `document` requests. -/
def fetchHandler (swOrigin : String) (net : Net) (cs : CacheState) (r : Request) : FetchOut :=
  let u := r.url
  match cachesMatch cs u with
  | some resp => ⟨some resp, cs, []⟩
  | none =>
    match net u with
    | .ok resp =>
      if resp.status != 200 || resp.rtype != "basic" then ⟨some resp, cs, [u]⟩
      else
        let cs1 := openCache cs CACHE_NAME
        let cs2 :=
          if strStartsWith u swOrigin || strIncludes u ".json" then
            cachePutIn cs1 CACHE_NAME u resp
          else cs1
        ⟨some resp, cs2, [u]⟩
    | .err =>
      if r.destination = "document" then ⟨cachesMatch cs "/index.html", cs, [u]⟩
      else ⟨none, cs, [u]⟩

end SrcSW

namespace DocSW

/-- Embedded sw.js lines 263-279 (`staleWhileRevalidate`): open the versioned
cache, look the request up there, always start a network fetch whose 200
responses are written back, and answer with the cached response when one
exists, otherwise with whatever the network produced (`null`, i.e. no
response, when it rejected). -/
def staleWhileRevalidate (net : Net) (cs : CacheState) (r : Request) : FetchOut :=
  let u := r.url
  let cs0 := openCache cs CACHE_NAME
  let cached := entryAt cs0 CACHE_NAME u
  let netRes := net u
  let cs1 :=
    match netRes with
    | .ok resp => if resp.status = 200 then cachePutIn cs0 CACHE_NAME u resp else cs0
    | .err => cs0
  let response :=
    match cached with
    | some c => some c
    | none => match netRes with | .ok resp => some resp | .err => none
  ⟨response, cs1, [u]⟩

/-- Whether the request path is routed to stale-while-revalidate
(embedded sw.js line 286). -/
def isSWRRoute (r : Request) : Bool :=
  strStartsWith r.pathname "/bibles/" || strStartsWith r.pathname "/xrefs/"

/-- Embedded sw.js lines 282-324: route `/bibles/**` and `/xrefs/**` to
`staleWhileRevalidate`; everything else is cache-first with a network
fallback that caches 200 responses of same-origin requests and falls back to
the cached `/index.html` for failed `document` requests. -/
def fetchHandler (swOrigin : String) (net : Net) (cs : CacheState) (r : Request) : FetchOut :=
  if isSWRRoute r then staleWhileRevalidate net cs r
  else
    let u := r.url
    match cachesMatch cs u with
    | some resp => ⟨some resp, cs, []⟩
    | none =>
      match net u with
      | .ok resp =>
        if resp.status != 200 then ⟨some resp, cs, [u]⟩
        else
          let cs1 := if r.origin = swOrigin then cachePutIn (openCache cs CACHE_NAME) CACHE_NAME u resp else cs
          ⟨some resp, cs1, [u]⟩
      | .err =>
        if r.destination = "document" then ⟨cachesMatch cs "/index.html", cs, [u]⟩
        else ⟨none, cs, [u]⟩

end DocSW

namespace Validator

/-! ## The JSON content validator (the unnamed Node script)

Pure translation of `src/unnamed/part_000`.  Console output (`printSummary`,
`bookStats`) is not modelled; `errors` and `warnings` are threaded
explicitly, and a JS exception inside a per-file `try` is modelled by an
optional thrown message. -/

/-- JS `\d`. -/
def isJsDigit (c : Char) : Bool := '0' ≤ c && c ≤ '9'

/-- JS `\s` (the ASCII whitespace classes plus NBSP; the rarer Unicode
space characters are not modelled). -/
def isJsSpace (c : Char) : Bool :=
  c = ' ' || c = '\t' || c = '\n' || c = Char.ofNat 13 || c = Char.ofNat 11 ||
  c = Char.ofNat 12 || c = Char.ofNat 160

/-- JS `.` (anything but a line terminator). -/
def isDotChar (c : Char) : Bool :=
  !(c = '\n' || c = Char.ofNat 13 || c = Char.ofNat 0x2028 || c = Char.ofNat 0x2029)

/-- Longest prefix of digit characters, with the remainder. -/
def spanDigits : List Char → List Char × List Char
  | [] => ([], [])
  | c :: rest =>
    if isJsDigit c then
      let (ds, rem) := spanDigits rest
      (c :: ds, rem)
    else ([], c :: rest)

/-- Longest prefix of whitespace characters, with the remainder. -/
def spanSpaces : List Char → List Char × List Char
  | [] => ([], [])
  | c :: rest =>
    if isJsSpace c then
      let (ss, rem) := spanSpaces rest
      (c :: ss, rem)
    else ([], c :: rest)

/-- The captures of `parseReference`. -/
structure RefParts where
  book : String
  chapter : String
  verseStart : String
  verseEnd : String
deriving DecidableEq, Repr

/-- Match `\s+(\d+):(\d+)(?:-(\d+))?$` against an entire suffix.  The
whitespace and digit classes are disjoint and `:`/`-` belong to neither, so
the greedy spans need no backtracking. -/
def matchTail (l : List Char) : Option (String × String × String) :=
  let (ws, r1) := spanSpaces l
  if ws.isEmpty then none
  else
    let (ch, r2) := spanDigits r1
    if ch.isEmpty then none
    else
      match r2 with
      | ':' :: r3 =>
        let (vs, r4) := spanDigits r3
        if vs.isEmpty then none
        else
          match r4 with
          | [] => some (⟨ch⟩, ⟨vs⟩, ⟨vs⟩)
          | '-' :: r5 =>
            let (ve, r6) := spanDigits r5
            if ve.isEmpty || !r6.isEmpty then none else some (⟨ch⟩, ⟨vs⟩, ⟨ve⟩)
          | _ => none
      | _ => none

/-- Lazy `(.+?)`: grow the book capture one character at a time and take the
first split whose tail matches; a book character that `.` cannot match also
blocks every longer split, so the search stops there. -/
def parseRefFrom (book : List Char) : List Char → Option RefParts
  | [] => none
  | c :: rest =>
    let book2 := book ++ [c]
    if book2.all isDotChar then
      match matchTail rest with
      | some (ch, vs, ve) => some ⟨⟨book2⟩, ch, vs, ve⟩
      | none => parseRefFrom book2 rest
    else none

/-- Lines 16-25: parse a reference like `John 3:16` or `1 John 4:9-10`
against `/^(.+?)\s+(\d+):(\d+)(?:-(\d+))?$/`, with `verseEnd` defaulting to
`verseStart`. -/
def parseReference (s : String) : Option RefParts := parseRefFrom [] s.data

/-- Lines 11-13: number of maximal non-whitespace runs
(`text.trim().split(/\s+/).filter(Boolean).length`). -/
def countWords (s : String) : Nat := go s.data
where
  go : List Char → Nat
    | [] => 0
    | c :: rest => if isJsSpace c then go rest else 1 + inWord rest
  inWord : List Char → Nat
    | [] => 0
    | c :: rest => if isJsSpace c then go rest else inWord rest

/-- The JS `parseInt` on an all-digit capture. -/
def digitsToNat (s : String) : Nat :=
  s.data.foldl (fun acc c => 10 * acc + (c.toNat - '0'.toNat)) 0

/-- The regex `/^\d+$/`. -/
def allDigits1 (s : String) : Bool := !s.data.isEmpty && s.data.all isJsDigit

/-- The regex `/^\d+:\d+$/` (line 176). -/
def keyOk (s : String) : Bool :=
  let (d1, r1) := spanDigits s.data
  match r1 with
  | ':' :: r2 =>
    let (d2, r3) := spanDigits r2
    !d1.isEmpty && !d2.isEmpty && r3.isEmpty
  | _ => false

/-- A JS property key that aliases an array/string index: the canonical
decimal form of a number (no leading zeros except `"0"` itself). -/
def canonicalIndex (s : String) : Option Nat :=
  if s = "0" then some 0
  else if allDigits1 s && s.data.head? ≠ some '0' then some (digitsToNat s)
  else none

/-- Lookup in the accumulated `bibleData` plain object. -/
def lookupBd : List (String × Json) → String → Option Json
  | [], _ => none
  | (k, v) :: rest, name => if k = name then some v else lookupBd rest name

/-- Model of `bookData[parsed.chapter]` (line 208): property access on whatever
`JSON.parse` produced for the book.  Objects yield their field, arrays and
strings are indexed when the key is a canonical index, other primitives
yield `undefined`, and `null` throws a `TypeError`. -/
def chapterAccess : Json → String → Except String (Option Json)
  | .null, _ => .error "Cannot read properties of null"
  | .obj fields, key => .ok (Json.lookupField fields key)
  | .arr xs, key =>
    .ok (match canonicalIndex key with
         | some i => xs.get? i
         | none => none)
  | .str s, key =>
    .ok (match canonicalIndex key with
         | some i => (s.data.get? i).map fun c => Json.str ⟨[c]⟩
         | none => none)
  | _, _ => .ok none

/-- Model of `chapter.length` (lines 218-222): arrays and strings have a numeric
`length`; for other values it is `undefined` and every `>` comparison with
it is false (an explicit `length` member on a plain object is not
modelled). -/
def lengthVal : Json → Option Nat
  | .arr xs => some xs.length
  | .str s => some s.data.length
  | _ => none

/-- Accumulated output of a validation step that can also throw. -/
structure VOut where
  errs : List String
  warns : List String
  thrown : Option String
deriving DecidableEq, Repr

/-- Lines 187-225: validation of one entry of a cross-reference array. -/
def processRef (fp : String) (bd : List (String × Json)) (r : Json) : VOut :=
  match r with
  | .str ref =>
    match parseReference ref with
    | none => ⟨[], [fp ++ ": Could not parse reference \"" ++ ref ++ "\""], none⟩
    | some p =>
      match lookupBd bd p.book with
      | none => ⟨[], [], none⟩
      | some bookData =>
        match chapterAccess bookData p.chapter with
        | .error m => ⟨[], [], some m⟩
        | .ok chapterOpt =>
          if !truthyO chapterOpt then
            ⟨[fp ++ ": Reference \"" ++ ref ++ "\" - chapter " ++ p.chapter ++
              " does not exist in " ++ p.book], [], none⟩
          else
            let vs := digitsToNat p.verseStart
            let ve := digitsToNat p.verseEnd
            let verseMsg := fun (v : Nat) =>
              fp ++ ": Reference \"" ++ ref ++ "\" - verse " ++ toString v ++
                " does not exist in " ++ p.book ++ " " ++ p.chapter
            let es :=
              match chapterOpt.bind lengthVal with
              | some len =>
                (if vs < 1 || len < vs then [verseMsg vs] else []) ++
                (if ve < 1 || len < ve then [verseMsg ve] else [])
              | none =>
                (if vs < 1 then [verseMsg vs] else []) ++
                (if ve < 1 then [verseMsg ve] else [])
            ⟨es, [], none⟩
  | _ => ⟨[fp ++ ": Reference in key must be a string"], [], none⟩

/-- Combine a step with the rest of a loop, stopping at a thrown message the
way an exception aborts the surrounding `for`. -/
def VOut.andThen (o : VOut) (rest : Unit → VOut) : VOut :=
  match o.thrown with
  | some _ => o
  | none =>
    let o2 := rest ()
    ⟨o.errs ++ o2.errs, o.warns ++ o2.warns, o2.thrown⟩

/-- The `for (const ref of refs)` loop. -/
def foldRefs (fp : String) (bd : List (String × Json)) : List Json → VOut
  | [] => ⟨[], [], none⟩
  | r :: rest => (processRef fp bd r).andThen fun _ => foldRefs fp bd rest

/-- Lines 174-226: one `[key, refs]` entry; an invalid key is reported but
the refs are still validated. -/
def processEntry (fp : String) (bd : List (String × Json)) (k : String) (v : Json) : VOut :=
  let e1 :=
    if keyOk k then []
    else [fp ++ ": Invalid key \"" ++ k ++
          "\" - must match format \"chapter:verse\" (e.g., \"3:16\")"]
  match v with
  | .arr rs =>
    let o := foldRefs fp bd rs
    ⟨e1 ++ o.errs, o.warns, o.thrown⟩
  | _ => ⟨e1 ++ [fp ++ ": Value for key \"" ++ k ++ "\" must be an array"], [], none⟩

/-- The `for ... of Object.entries(data)` loop. -/
def foldEntries (fp : String) (bd : List (String × Json)) : List (String × Json) → VOut
  | [] => ⟨[], [], none⟩
  | (k, v) :: rest => (processEntry fp bd k v).andThen fun _ => foldEntries fp bd rest

/-- Lines 158-229: validation of one parsed cross-reference file; the
per-file `catch` appends the thrown message as one more error. -/
def validateXrefsFile (fp : String) (bd : List (String × Json)) (data : Json) :
    List String × List String :=
  match data with
  | .null => ([fp ++ ": Cannot read properties of null"], [])
  | .obj fields =>
    if truthyO (Json.lookupField fields "reference") &&
        truthyO (Json.lookupField fields "crossReferences") then ([], [])
    else
      let o := foldEntries fp bd fields
      match o.thrown with
      | some t => (o.errs ++ [fp ++ ": " ++ t], o.warns)
      | none => (o.errs, o.warns)
  | _ => ([fp ++ ": Cross-reference data must be an object"], [])

/-- Lines 62-90: per-chapter structural checks of a Bible book file. -/
def chapterErrs (fp : String) (k : String) (verses : Json) : List String :=
  let e1 :=
    if allDigits1 k then []
    else [fp ++ ": Invalid chapter key \"" ++ k ++ "\" - must be numeric string"]
  match verses with
  | .arr vs =>
    e1 ++ (if vs.isEmpty then [fp ++ ": Chapter " ++ k ++ " has empty verse array"] else []) ++
      verseErrs fp k 0 vs
  | _ => e1 ++ [fp ++ ": Chapter " ++ k ++ " must be an array of verses"]
where
  verseErrs (fp k : String) (i : Nat) : List Json → List String
    | [] => []
    | .str _ :: rest => verseErrs fp k (i + 1) rest
    | _ :: rest =>
      (fp ++ ": Chapter " ++ k ++ ", verse " ++ toString (i + 1) ++ " must be a string") ::
        verseErrs fp k (i + 1) rest

/-- Lines 51-94: structural checks of one parsed Bible book file.  `null`
passes the `typeof` test and then `Object.entries(null)` throws into the
per-file `catch`. -/
def validateBibleData (fp : String) (data : Json) : List String :=
  match data with
  | .null => [fp ++ ": Cannot convert undefined or null to object"]
  | .obj entries => entriesErrs fp entries
  | _ => [fp ++ ": Bible data must be an object"]
where
  entriesErrs (fp : String) : List (String × Json) → List String
    | [] => []
    | (k, v) :: rest => chapterErrs fp k v ++ entriesErrs fp rest

/-- Line 271. -/
def requiredFields : List String :=
  ["id", "ref", "tradition", "theologian", "work", "century", "mode", "license",
   "summary", "takeaways", "citation"]

/-- Display of a JSON value inside a template literal (primitives only;
the display of arrays and objects is not needed by any property and is
abbreviated). -/
def jsDisplay : Json → String
  | .str s => s
  | .num n => toString n
  | .bool b => if b then "true" else "false"
  | .null => "null"
  | .arr _ => ""
  | .obj _ => "[object Object]"

/-- Lines 267-295: checks of one commentary entry.  `field in entry` throws
for a non-object entry; `entry.excerpt.trim()` throws when `excerpt` is a
truthy non-string. -/
def commentaryEntry (fp : String) (idx : Nat) (e : Json) : VOut :=
  let pre := fp ++ "[" ++ toString idx ++ "]"
  match e with
  | .obj fields =>
    let missing := requiredFields.foldr
      (fun f acc =>
        (if (Json.lookupField fields f).isSome then []
         else [pre ++ ": Missing required field \"" ++ f ++ "\""]) ++ acc) []
    let modeV := Json.lookupField fields "mode"
    let modeErr :=
      if truthyO modeV &&
          !(modeV == some (Json.str "excerpt") || modeV == some (Json.str "summary")) then
        [pre ++ ": mode must be \"excerpt\" or \"summary\", got \"" ++
          jsDisplay (modeV.getD Json.null) ++ "\""]
      else []
    let excerptV := Json.lookupField fields "excerpt"
    let excerptStep : Except String (List String) :=
      if modeV == some (Json.str "excerpt") &&
          Json.lookupField fields "license" == some (Json.str "public-domain") &&
          truthyO excerptV then
        match excerptV with
        | some (.str s) =>
          let wc := countWords s
          if 120 < wc then
            .ok [pre ++ ": excerpt has " ++ toString wc ++
              " words but must be <= 120 words for public-domain license"]
          else .ok []
        | _ => .error "entry.excerpt.trim is not a function"
      else .ok []
    match excerptStep with
    | .error t => ⟨missing ++ modeErr, [], some t⟩
    | .ok es =>
      let tv := Json.lookupField fields "takeaways"
      let takeErr :=
        if truthyO tv && !(match tv with | some (.arr _) => true | _ => false) then
          [pre ++ ": takeaways must be an array"]
        else []
      ⟨missing ++ modeErr ++ es ++ takeErr, [], none⟩
  | _ => ⟨[], [], some "Cannot use in operator on a non-object entry"⟩

/-- The `data.forEach((entry, idx) => ...)` loop. -/
def foldCommentary (fp : String) (idx : Nat) : List Json → VOut
  | [] => ⟨[], [], none⟩
  | e :: rest => (commentaryEntry fp idx e).andThen fun _ => foldCommentary fp (idx + 1) rest

/-- Lines 251-298: validation of one parsed commentary file. -/
def validateCommentaryFile (fp : String) (data : Json) : List String × List String :=
  match data with
  | .null => ([fp ++ ": Cannot read properties of null"], [])
  | .arr entries =>
    let o := foldCommentary fp 0 entries
    match o.thrown with
    | some t => (o.errs ++ [fp ++ ": " ++ t], o.warns)
    | none => (o.errs, o.warns)
  | .obj fields =>
    if truthyO (Json.lookupField fields "reference") &&
        truthyO (Json.lookupField fields "commentaries") then ([], [])
    else ([fp ++ ": Commentary data must be an array"], [])
  | _ => ([fp ++ ": Commentary data must be an array"], [])

/-! ### Directory scan and main -/

/-- A filesystem node: a file with its `readFile`+`JSON.parse` outcome
(`.error` models a read or parse exception with its message), or a
directory. -/
inductive FNode where
  | file (content : Except String Json)
  | dir (entries : List (String × FNode))

/-- A directory listing, in `readdir` order. -/
def Fs : Type := List (String × FNode)

def lookupNode : List (String × FNode) → String → Option FNode
  | [], _ => none
  | (k, v) :: rest, name => if k = name then some v else lookupNode rest name

/-- Reading and validating one `bibles/<translation>/<file>.json` path:
`readFile` on a directory throws `EISDIR`, a parse failure throws, and both
land in the per-file `catch` (lines 91-94). -/
def validateBibleFile (fp : String) (node : FNode) : List String :=
  match node with
  | .dir _ => [fp ++ ": EISDIR: illegal operation on a directory, read"]
  | .file (.error m) => [fp ++ ": " ++ m]
  | .file (.ok data) => validateBibleData fp data

/-- The `for (const file of files)` loop of `validateBibleFiles`
(lines 42-95), also returning the `.json` paths it visited. -/
def bibleTranslationFiles (dirPath : String) : List (String × FNode) → List String × List String
  | [] => ([], [])
  | (fname, fnode) :: rest =>
    let (e2, v2) := bibleTranslationFiles dirPath rest
    if strEndsWith fname ".json" then
      let fp := dirPath ++ "/" ++ fname
      (validateBibleFile fp fnode ++ e2, fp :: v2)
    else (e2, v2)

/-- The `for (const translation of translations)` loop (lines 34-99):
`readdir` on a file entry throws and the surrounding `try` skips it. -/
def bibleTranslations : List (String × FNode) → List String × List String
  | [] => ([], [])
  | (tname, tnode) :: rest =>
    let (e1, v1) :=
      match tnode with
      | .file _ => ([], [])
      | .dir files => bibleTranslationFiles ("bibles/" ++ tname) files
    let (e2, v2) := bibleTranslations rest
    (e1 ++ e2, v1 ++ v2)

/-- Lines 28-100 (`validateBibleFiles`): `readdir('bibles')` is not inside
any `try`, so a missing `bibles` directory rejects into `main`'s catch
(`none` here). -/
def validateBibleFilesRun (fs : Fs) : Option (List String × List String) :=
  match lookupNode fs "bibles" with
  | some (.dir translations) => some (bibleTranslations translations)
  | _ => none

/-- First-wins insertion of a parsed book (line 126). -/
def bdInsert (acc : List (String × Json)) (book : String) (data : Json) :
    List (String × Json) :=
  if (lookupBd acc book).isSome then acc else acc ++ [(book, data)]

/-- Inner file loop of `loadAllBibleData` (lines 116-132): files that fail
to read or parse are skipped. -/
def loadBibleFiles (acc : List (String × Json)) : List (String × FNode) → List (String × Json)
  | [] => acc
  | (fname, fnode) :: rest =>
    let acc2 :=
      if strEndsWith fname ".json" then
        match fnode with
        | .file (.ok data) => bdInsert acc ⟨fname.data.take (fname.data.length - 5)⟩ data
        | _ => acc
      else acc
    loadBibleFiles acc2 rest

/-- Outer translation loop of `loadAllBibleData` (lines 110-136). -/
def loadBibleTranslations (acc : List (String × Json)) :
    List (String × FNode) → List (String × Json)
  | [] => acc
  | (_, .file _) :: rest => loadBibleTranslations acc rest
  | (_, .dir files) :: rest => loadBibleTranslations (loadBibleFiles acc files) rest

/-- Lines 103-142 (`loadAllBibleData`): every failure is swallowed. -/
def loadAllBibleData (fs : Fs) : List (String × Json) :=
  match lookupNode fs "bibles" with
  | some (.dir translations) => loadBibleTranslations [] translations
  | _ => []

/-- The top-level `.json` file loop shared by `validateXrefs` and
`validateCommentary`, parameterised by the per-file validator. -/
def topLevelJsonFiles (dirPath : String) (vf : String → Json → List String × List String) :
    List (String × FNode) → List String × List String × List String
  | [] => ([], [], [])
  | (fname, fnode) :: rest =>
    let (e2, w2, v2) := topLevelJsonFiles dirPath vf rest
    if strEndsWith fname ".json" then
      let fp := dirPath ++ "/" ++ fname
      let (e1, w1) :=
        match fnode with
        | .dir _ => ([fp ++ ": EISDIR: illegal operation on a directory, read"], [])
        | .file (.error m) => ([fp ++ ": " ++ m], [])
        | .file (.ok data) => vf fp data
      (e1 ++ e2, w1 ++ w2, fp :: v2)
    else (e2, w2, v2)

/-- Lines 145-235 (`validateXrefs`): a missing `xrefs` directory only warns. -/
def validateXrefsRun (fs : Fs) (bd : List (String × Json)) :
    List String × List String × List String :=
  match lookupNode fs "xrefs" with
  | some (.dir files) => topLevelJsonFiles "xrefs" (fun fp d => validateXrefsFile fp bd d) files
  | _ => ([], ["xrefs directory not found"], [])

/-- Lines 238-304 (`validateCommentary`): a missing `theology` directory
only warns. -/
def validateCommentaryRun (fs : Fs) : List String × List String × List String :=
  match lookupNode fs "theology" with
  | some (.dir files) => topLevelJsonFiles "theology" validateCommentaryFile files
  | _ => ([], ["theology directory not found"], [])

/-- Result of one run of the CLI: the accumulated reports, the visited
`.json` paths and the process exit code. -/
structure RunOut where
  errors : List String
  warnings : List String
  visited : List String
  exitCode : Nat
deriving DecidableEq, Repr

/-- Lines 346-365 (`main`): run the three validators in order, then
`process.exit(1)` iff any errors accumulated; an exception — only the
unprotected `readdir('bibles')` can raise one — hits the fatal catch, which
exits 1 with nothing accumulated. -/
def runValidator (fs : Fs) : RunOut :=
  match validateBibleFilesRun fs with
  | none => ⟨[], [], [], 1⟩
  | some (e1, v1) =>
    let bd := loadAllBibleData fs
    let (e2, w2, v2) := validateXrefsRun fs bd
    let (e3, w3, v3) := validateCommentaryRun fs
    let errors := e1 ++ e2 ++ e3
    ⟨errors, w2 ++ w3, v1 ++ v2 ++ v3, if errors.isEmpty then 0 else 1⟩

/-! ### The two scan shapes -/

mutual

/-- Recursive collection of every `.json` file path below a node.

Formalisation of the specification sentence, for comparison with the scan
the code performs: "scans `bibles/`, `xrefs/`, `theology/` directories
recursively for `.json` files". -/
def recJsonNode (pfx name : String) : FNode → List String
  | .file _ => if strEndsWith name ".json" then [pfx ++ name] else []
  | .dir entries => recJsonList (pfx ++ name ++ "/") entries

def recJsonList (pfx : String) : List (String × FNode) → List String
  | [] => []
  | (n, node) :: rest => recJsonNode pfx n node ++ recJsonList pfx rest

end

/-- The spec-described scan: all `.json` files anywhere below the three
data directories. -/
def specScan (fs : Fs) : List String :=
  scanDir fs "bibles" ++ scanDir fs "xrefs" ++ scanDir fs "theology"
where
  scanDir (fs : Fs) (d : String) : List String :=
    match lookupNode fs d with
    | some (.dir entries) => recJsonList (d ++ "/") entries
    | _ => []

/-- The `.json` entry names of one directory listing, as paths. -/
def topJsonNames (pfx : String) : List (String × FNode) → List String
  | [] => []
  | (n, _) :: rest =>
    if strEndsWith n ".json" then (pfx ++ "/" ++ n) :: topJsonNames pfx rest
    else topJsonNames pfx rest

/-- The `.json` entry names one level below `bibles/`. -/
def transJsonNames : List (String × FNode) → List String
  | [] => []
  | (tn, .dir files) :: rest => topJsonNames ("bibles/" ++ tn) files ++ transJsonNames rest
  | (_, .file _) :: rest => transJsonNames rest

/-- The fixed-depth enumeration the code actually performs: `.json` entries
of `bibles/<translation>/`, of `xrefs/` and of `theology/`. -/
def depthScan (fs : Fs) : List String :=
  (match lookupNode fs "bibles" with | some (.dir ts) => transJsonNames ts | _ => []) ++
  (match lookupNode fs "xrefs" with | some (.dir es) => topJsonNames "xrefs" es | _ => []) ++
  (match lookupNode fs "theology" with | some (.dir es) => topJsonNames "theology" es | _ => [])

end Validator

/-! ## Concrete fixtures used by the closed theorems and witnesses -/

/-- The worker's own origin in the concrete scenarios. -/
def origin0 : String := "https://example.com"

def respStale : Response := ⟨200, "basic", "stale"⟩

def respFresh : Response := ⟨200, "basic", "fresh"⟩

def respIndex : Response := ⟨200, "basic", "shell"⟩

/-- A network where every fetch resolves with a 200 `basic` response. -/
def netOk : Net := fun _ => .ok respFresh

/-- A network where only the precached `/xrefs/John.json` fetch fails. -/
def netBadXref : Net := fun u => if u = "/xrefs/John.json" then .err else .ok respFresh

/-- A network where only the `/index.html` fetch fails. -/
def netBadIndex : Net := fun u => if u = "/index.html" then .err else .ok respFresh

/-- A network that is fully offline. -/
def netDown : Net := fun _ => .err

def respCors : Response := ⟨200, "cors", "cdn"⟩

/-- A network where every fetch resolves with a 200 cross-origin (`cors`)
response. -/
def netCors : Net := fun _ => .ok respCors

/-- A same-origin request into the `/bibles/` content tree. -/
def reqBible : Request := ⟨origin0, "/bibles/WEB/John.json", ""⟩

/-- A cross-origin request whose path happens to match the `/bibles/` route. -/
def reqEvil : Request := ⟨"https://evil.example", "/bibles/x.json", ""⟩

/-- A cross-origin request outside the content routes. -/
def reqCdn : Request := ⟨"https://cdn.tailwindcss.com", "/", ""⟩

/-- A same-origin navigation to an uncached page. -/
def reqNav : Request := ⟨origin0, "/about.html", "document"⟩

/-- A cache state holding one stale entry for `reqBible`. -/
def csWithBible : CacheState :=
  [("bible-study-v1", [("https://example.com/bibles/WEB/John.json", respStale)])]

/-- A cache state holding only the precached root document. -/
def csWithIndex : CacheState := [("bible-study-v1", [("/index.html", respIndex)])]

/-- Pre-existing stores at activation time: an unrelated store, a stale
prefixed store and the current one. -/
def cs3 : CacheState :=
  [("unrelated-cache", []), ("bible-study-v0", []),
   ("bible-study-v1", [("/index.html", respIndex)])]

/-- A tree whose `xrefs/` holds a structurally invalid `.json` file one
level deeper than the validator looks. -/
def fsC : Validator.Fs :=
  [("bibles", .dir [("WEB", .dir
      [("John.json", .file (.ok (Json.obj
        [("1", Json.arr [Json.str "In the beginning was the Word"])])))])]),
   ("xrefs", .dir [("deep", .dir [("a.json", .file (.ok (Json.str "bad")))])]),
   ("theology", .dir [])]

/-- A tree with no `bibles/` directory at all. -/
def fsD : Validator.Fs := []

/-- A tree whose only finding is one unparseable cross-reference string. -/
def fsW : Validator.Fs :=
  [("bibles", .dir []),
   ("xrefs", .dir [("John.json", .file (.ok (Json.obj
      [("3:16", Json.arr [Json.str "gibberish"])])))]),
   ("theology", .dir [])]

/-! ## Cache-state lemmas -/

theorem storeLookup_storePut (st : CacheStore) (u u' : String) (resp : Response) :
    storeLookup (storePut st u resp) u' =
      if u' = u then some resp else storeLookup st u' := by
  induction st with
  | nil =>
    by_cases h : u' = u
    · subst h
      simp [storePut, storeLookup]
    · have h2 : ¬u = u' := fun hh => h hh.symm
      simp [storePut, storeLookup, h, h2]
  | cons hd tl ih =>
    obtain ⟨k, v⟩ := hd
    by_cases hk : k = u
    · subst hk
      by_cases h : u' = k
      · subst h
        simp [storePut, storeLookup]
      · have h2 : ¬k = u' := fun hh => h hh.symm
        simp [storePut, storeLookup, h, h2]
    · by_cases h2 : k = u'
      · subst h2
        simp [storePut, storeLookup, hk]
      · simp [storePut, storeLookup, hk, h2, ih]

theorem entryAt_openCache (cs : CacheState) (name n u : String) :
    entryAt (openCache cs name) n u = entryAt cs n u := by
  induction cs with
  | nil => simp [openCache, entryAt, storeLookup]
  | cons hd tl ih =>
    obtain ⟨k, st⟩ := hd
    by_cases hk : k = name
    · simp [openCache, hk]
    · simp [openCache, entryAt, hk, ih]

theorem entryAt_cachePutIn (cs : CacheState) (name u n u' : String) (resp : Response) :
    entryAt (cachePutIn cs name u resp) n u' =
      if n = name ∧ u' = u then some resp else entryAt cs n u' := by
  induction cs with
  | nil =>
    by_cases hn : name = n
    · subst hn
      by_cases h : u' = u
      · subst h
        simp [cachePutIn, entryAt, storeLookup_storePut, storeLookup]
      · have h2 : ¬u = u' := fun hh => h hh.symm
        simp [cachePutIn, entryAt, storeLookup_storePut, storeLookup, h, h2]
    · have hn2 : ¬n = name := fun hh => hn hh.symm
      simp [cachePutIn, entryAt, hn, hn2]
  | cons hd tl ih =>
    obtain ⟨k, st⟩ := hd
    by_cases hk : k = name
    · subst hk
      by_cases hn : k = n
      · subst hn
        simp [cachePutIn, entryAt, storeLookup_storePut]
      · have hn2 : ¬n = k := fun hh => hn hh.symm
        simp [cachePutIn, entryAt, hn, hn2]
    · by_cases hn : k = n
      · subst hn
        have hcond : ¬(k = name ∧ u' = u) := fun hh => hk hh.1
        simp [cachePutIn, entryAt, hk, hcond]
      · simp [cachePutIn, entryAt, hk, hn, ih]

/-! ## C1 — `src/sw.js` invokes skip-waiting on its own during install -/

/-- C1: the claim fails on `src/sw.js`.  On a successful install the
`src/sw.js` handler itself calls `self.skipWaiting()` (line 23), so with
another controller still active the new instance heads straight to
activation instead of `Waiting`; the embedded sw.js of PWA-TESTING.md does
transition to `Waiting`, where a `SKIP_WAITING` message — and no other
message type — makes the handler invoke `skipWaiting`. -/
theorem c1_src_install_invokes_skip_waiting :
    (SrcSW.install netOk []).skipWaitingCalled = true ∧
    postInstallPhase (SrcSW.install netOk []) true = SWPhase.activating ∧
    (DocSW.install netOk []).skipWaitingCalled = false ∧
    postInstallPhase (DocSW.install netOk []) true = SWPhase.waiting ∧
    messageInvokesSkipWaiting (Json.obj [("type", Json.str "SKIP_WAITING")]) = true ∧
    messageInvokesSkipWaiting (Json.obj [("type", Json.str "PING")]) = false :=
  ⟨rfl, rfl, rfl, rfl, rfl, rfl⟩

/-! ## C2 — the embedded install handler swallows precache failures -/

/-- C2: the claim fails on the embedded sw.js of PWA-TESTING.md.  With the
fetch of the precached `/xrefs/John.json` failing, its install `catch`
(lines 237-239) logs and resolves, so the instance still reaches `Waiting`
while the versioned store misses listed entries; `src/sw.js`, which has no
such catch, fails the install as the claim demands. -/
theorem c2_doc_install_swallows_precache_failure :
    (DocSW.install netBadXref []).succeeded = true ∧
    postInstallPhase (DocSW.install netBadXref []) true = SWPhase.waiting ∧
    "/index.html" ∈ DocSW.PRECACHE_ASSETS ∧
    entryAt (DocSW.install netBadXref []).caches DocSW.CACHE_NAME "/index.html" = none ∧
    (SrcSW.install netBadIndex []).succeeded = false ∧
    postInstallPhase (SrcSW.install netBadIndex []) true = SWPhase.discarded :=
  ⟨rfl, rfl, by decide, rfl, rfl, rfl⟩

/-! ## C3 — `src/sw.js` activation deletes stores without the prefix -/

/-- C3: the claim fails on `src/sw.js`.  Its activate handler (line 35)
deletes every store whose name differs from `bible-study-v1`, so the
unprefixed `unrelated-cache` is deleted too; the embedded sw.js (line 251)
filters on the `bible-study-` prefix and leaves it untouched. -/
theorem c3_src_activate_deletes_unprefixed_store :
    SrcSW.activate cs3 = [("bible-study-v1", [("/index.html", respIndex)])] ∧
    DocSW.activate cs3 =
      [("unrelated-cache", []), ("bible-study-v1", [("/index.html", respIndex)])] :=
  ⟨rfl, rfl⟩

/-! ## C4 — `src/sw.js` has no stale-while-revalidate route -/

/-- C4: the claim fails on `src/sw.js`.  For a `/bibles/**` request with a
cached entry, `src/sw.js` answers from the cache and issues no network
fetch at all, so no background revalidation and no cache overwrite happen;
the embedded sw.js answers with the same stale entry, issues the background
fetch and stores its 200 result. -/
theorem c4_src_serves_swr_route_without_revalidation :
    (SrcSW.fetchHandler origin0 netOk csWithBible reqBible).netRequests = [] ∧
    (SrcSW.fetchHandler origin0 netOk csWithBible reqBible).response = some respStale ∧
    (SrcSW.fetchHandler origin0 netOk csWithBible reqBible).caches = csWithBible ∧
    (DocSW.fetchHandler origin0 netOk csWithBible reqBible).netRequests = [reqBible.url] ∧
    (DocSW.fetchHandler origin0 netOk csWithBible reqBible).response = some respStale ∧
    entryAt (DocSW.fetchHandler origin0 netOk csWithBible reqBible).caches
      DocSW.CACHE_NAME reqBible.url = some respFresh :=
  ⟨rfl, rfl, rfl, rfl, rfl, rfl⟩

/-! ## C5 — only 200 responses are ever written, and nothing is evicted -/

/-- Every cache state a fetch handler can leave behind is the input state,
the input state with the versioned store opened, or that with one 200
response written. -/
theorem cachesShape_src (swO : String) (net : Net) (cs : CacheState) (r : Request) :
    (SrcSW.fetchHandler swO net cs r).caches = cs ∨
    (SrcSW.fetchHandler swO net cs r).caches = openCache cs SrcSW.CACHE_NAME ∨
    ∃ u₀ r₀, r₀.status = 200 ∧
      (SrcSW.fetchHandler swO net cs r).caches =
        cachePutIn (openCache cs SrcSW.CACHE_NAME) SrcSW.CACHE_NAME u₀ r₀ := by
  simp only [SrcSW.fetchHandler]
  cases cachesMatch cs r.url with
  | some resp => exact Or.inl rfl
  | none =>
    cases hn : net r.url with
    | err =>
      by_cases hd : r.destination = "document" <;> simp [hd]
    | ok resp =>
      by_cases hv : (resp.status != 200 || resp.rtype != "basic") = true
      · simp [hv]
      · have h200 : resp.status = 200 := by
          rcases Bool.or_eq_false_iff.mp (Bool.not_eq_true _ |>.mp hv) with ⟨h1, _⟩
          simpa using h1
        by_cases hc : (strStartsWith r.url swO || strIncludes r.url ".json") = true
        · simp only [hv, hc, if_true, if_false, Bool.false_eq_true]
          exact Or.inr (Or.inr ⟨r.url, resp, h200, rfl⟩)
        · simp only [hv, hc, if_false, Bool.false_eq_true]
          exact Or.inr (Or.inl trivial)

theorem cachesShape_doc (swO : String) (net : Net) (cs : CacheState) (r : Request) :
    (DocSW.fetchHandler swO net cs r).caches = cs ∨
    (DocSW.fetchHandler swO net cs r).caches = openCache cs DocSW.CACHE_NAME ∨
    ∃ u₀ r₀, r₀.status = 200 ∧
      (DocSW.fetchHandler swO net cs r).caches =
        cachePutIn (openCache cs DocSW.CACHE_NAME) DocSW.CACHE_NAME u₀ r₀ := by
  simp only [DocSW.fetchHandler]
  by_cases hr : DocSW.isSWRRoute r = true
  · simp only [hr, if_true, DocSW.staleWhileRevalidate]
    cases hn : net r.url with
    | err => exact Or.inr (Or.inl rfl)
    | ok resp =>
      by_cases h200 : resp.status = 200
      · simp only [h200, if_true]
        exact Or.inr (Or.inr ⟨r.url, resp, h200, rfl⟩)
      · simp only [h200, if_false]
        exact Or.inr (Or.inl trivial)
  · simp only [hr, if_false, Bool.false_eq_true]
    cases cachesMatch cs r.url with
    | some resp => exact Or.inl rfl
    | none =>
      cases hn : net r.url with
      | err =>
        by_cases hd : r.destination = "document" <;> simp [hd]
      | ok resp =>
        by_cases hv : (resp.status != 200) = true
        · simp [hv]
        · have h200 : resp.status = 200 := by simpa using Bool.not_eq_true _ |>.mp hv
          by_cases ho : r.origin = swO
          · simp only [hv, ho, if_true, if_false, Bool.false_eq_true]
            exact Or.inr (Or.inr ⟨r.url, resp, h200, rfl⟩)
          · simp only [hv, ho, if_false, Bool.false_eq_true]
            exact Or.inl trivial

/-- The two C5 properties follow from the shape of the resulting state. -/
theorem shapeProps (cs cs' : CacheState) (m : String)
    (h : cs' = cs ∨ cs' = openCache cs m ∨
      ∃ u₀ r₀, r₀.status = 200 ∧ cs' = cachePutIn (openCache cs m) m u₀ r₀)
    (n u : String) (resp : Response) :
    (entryAt cs' n u = some resp → entryAt cs n u = some resp ∨ resp.status = 200) ∧
    (∀ resp0, entryAt cs n u = some resp0 → ∃ resp1, entryAt cs' n u = some resp1) := by
  rcases h with h | h | ⟨u₀, r₀, h200, h⟩
  · subst h
    exact ⟨fun he => Or.inl he, fun r0 he => ⟨r0, he⟩⟩
  · subst h
    rw [entryAt_openCache]
    exact ⟨fun he => Or.inl he, fun r0 he => ⟨r0, he⟩⟩
  · subst h
    constructor
    · intro he
      rw [entryAt_cachePutIn] at he
      by_cases hc : n = m ∧ u = u₀
      · rw [if_pos hc] at he
        cases he
        exact Or.inr h200
      · rw [if_neg hc, entryAt_openCache] at he
        exact Or.inl he
    · intro r0 he
      rw [entryAt_cachePutIn]
      by_cases hc : n = m ∧ u = u₀
      · rw [if_pos hc]
        exact ⟨r₀, rfl⟩
      · rw [if_neg hc, entryAt_openCache]
        exact ⟨r0, he⟩

/-- C5: under every strategy of both service workers, an entry present after
a fetch event was either already present before it or has status 200, and
an entry present before is never evicted by the event — in particular not
because a refetch failed. -/
theorem c5_only_200_stored_and_no_eviction
    (swO : String) (net : Net) (cs : CacheState) (r : Request)
    (n u : String) (resp : Response) :
    ((entryAt (SrcSW.fetchHandler swO net cs r).caches n u = some resp →
        entryAt cs n u = some resp ∨ resp.status = 200) ∧
     (∀ resp0, entryAt cs n u = some resp0 →
        ∃ resp1, entryAt (SrcSW.fetchHandler swO net cs r).caches n u = some resp1)) ∧
    ((entryAt (DocSW.fetchHandler swO net cs r).caches n u = some resp →
        entryAt cs n u = some resp ∨ resp.status = 200) ∧
     (∀ resp0, entryAt cs n u = some resp0 →
        ∃ resp1, entryAt (DocSW.fetchHandler swO net cs r).caches n u = some resp1)) :=
  ⟨shapeProps cs _ SrcSW.CACHE_NAME (cachesShape_src swO net cs r) n u resp,
   shapeProps cs _ DocSW.CACHE_NAME (cachesShape_doc swO net cs r) n u resp⟩

/-- Closed instance of C5: the pre-existing stale entry survives both
handlers. -/
theorem c5_witness :
    (entryAt csWithBible "bible-study-v1" "https://example.com/bibles/WEB/John.json" =
        some respStale ∨ respStale.status = 200) ∧
    (∃ resp1, entryAt (SrcSW.fetchHandler origin0 netOk csWithBible reqBible).caches
        "bible-study-v1" "https://example.com/bibles/WEB/John.json" = some resp1) ∧
    (∃ resp1, entryAt (DocSW.fetchHandler origin0 netOk csWithBible reqBible).caches
        "bible-study-v1" "https://example.com/bibles/WEB/John.json" = some resp1) :=
  ⟨(c5_only_200_stored_and_no_eviction origin0 netOk csWithBible reqBible
      "bible-study-v1" "https://example.com/bibles/WEB/John.json" respStale).1.1 rfl,
   (c5_only_200_stored_and_no_eviction origin0 netOk csWithBible reqBible
      "bible-study-v1" "https://example.com/bibles/WEB/John.json" respStale).1.2 respStale rfl,
   (c5_only_200_stored_and_no_eviction origin0 netOk csWithBible reqBible
      "bible-study-v1" "https://example.com/bibles/WEB/John.json" respStale).2.2 respStale rfl⟩

/-! ## C6 — stale-while-revalidate on a cold cache -/

theorem docFetch_on_swr_route (swO : String) (net : Net) (cs : CacheState) (r : Request)
    (hroute : DocSW.isSWRRoute r = true) :
    DocSW.fetchHandler swO net cs r = DocSW.staleWhileRevalidate net cs r := by
  simp [DocSW.fetchHandler, hroute]

/-- C6: on a stale-while-revalidate route with no cached entry, a 200
network response is handed to the caller and is afterwards found in the
store; a failed network fetch leaves the caller with no response. -/
theorem c6_swr_cold_cache (swO : String) (net : Net) (cs : CacheState) (r : Request)
    (hroute : DocSW.isSWRRoute r = true)
    (hmiss : entryAt cs DocSW.CACHE_NAME r.url = none) :
    (∀ resp, net r.url = .ok resp → resp.status = 200 →
      (DocSW.fetchHandler swO net cs r).response = some resp ∧
      entryAt (DocSW.fetchHandler swO net cs r).caches DocSW.CACHE_NAME r.url = some resp) ∧
    (net r.url = .err → (DocSW.fetchHandler swO net cs r).response = none) := by
  rw [docFetch_on_swr_route swO net cs r hroute]
  have hmiss2 : entryAt (openCache cs DocSW.CACHE_NAME) DocSW.CACHE_NAME r.url = none := by
    rw [entryAt_openCache]
    exact hmiss
  constructor
  · intro resp hok h200
    simp only [DocSW.staleWhileRevalidate, hmiss2, hok, h200, if_true]
    exact ⟨trivial, by rw [entryAt_cachePutIn, if_pos ⟨rfl, rfl⟩]⟩
  · intro herr
    simp [DocSW.staleWhileRevalidate, hmiss2, herr]

/-- Closed instance of C6: a cold-cache `/bibles/` request online and
offline. -/
theorem c6_witness :
    ((DocSW.fetchHandler origin0 netOk [] reqBible).response = some respFresh ∧
     entryAt (DocSW.fetchHandler origin0 netOk [] reqBible).caches DocSW.CACHE_NAME
       reqBible.url = some respFresh) ∧
    (DocSW.fetchHandler origin0 netDown [] reqBible).response = none :=
  ⟨(c6_swr_cold_cache origin0 netOk [] reqBible rfl rfl).1 respFresh rfl rfl,
   (c6_swr_cold_cache origin0 netDown [] reqBible rfl rfl).2 rfl⟩

/-! ## C7 — cache-first misses with a dead network -/

/-- C7: when the cache misses and the network fails, both workers answer a
`document` request with the stored root document and answer every other
request kind with no usable response. -/
theorem c7_document_fallback (swO : String) (net : Net) (cs : CacheState) (r : Request)
    (hmiss : cachesMatch cs r.url = none) (hnet : net r.url = .err) :
    (SrcSW.fetchHandler swO net cs r).response =
      (if r.destination = "document" then cachesMatch cs "/index.html" else none) ∧
    (DocSW.isSWRRoute r = false →
      (DocSW.fetchHandler swO net cs r).response =
        (if r.destination = "document" then cachesMatch cs "/index.html" else none)) := by
  constructor
  · simp only [SrcSW.fetchHandler, hmiss, hnet]
    by_cases hd : r.destination = "document" <;> simp [hd]
  · intro hroute
    simp only [DocSW.fetchHandler, hroute, if_false, Bool.false_eq_true, hmiss, hnet]
    by_cases hd : r.destination = "document" <;> simp [hd]

/-- Closed instance of C7: an offline navigation is served the cached shell,
an offline sub-resource request gets nothing. -/
theorem c7_witness :
    (SrcSW.fetchHandler origin0 netDown csWithIndex reqNav).response = some respIndex ∧
    (DocSW.fetchHandler origin0 netDown csWithIndex reqNav).response = some respIndex ∧
    (SrcSW.fetchHandler origin0 netDown [] (Request.mk origin0 "/x.bin" "")).response = none :=
  ⟨((c7_document_fallback origin0 netDown csWithIndex reqNav rfl rfl).1).trans (by rfl),
   (((c7_document_fallback origin0 netDown csWithIndex reqNav rfl rfl).2 rfl)).trans (by rfl),
   ((c7_document_fallback origin0 netDown [] (Request.mk origin0 "/x.bin" "") rfl rfl).1).trans
     (by rfl)⟩

/-! ## C8 — cross-origin storage -/

/-- C8 counterexample: the embedded worker's stale-while-revalidate routes
match the path regardless of origin, so a cross-origin response that is not
in any precache manifest does end up stored. -/
theorem c8_counterexample_swr_stores_cross_origin :
    reqEvil.origin ≠ origin0 ∧
    reqEvil.url ∉ DocSW.PRECACHE_ASSETS ∧
    reqEvil.url ∉ SrcSW.ASSETS_TO_CACHE ∧
    entryAt (DocSW.fetchHandler origin0 netOk [] reqEvil).caches DocSW.CACHE_NAME
      reqEvil.url = some respFresh :=
  ⟨by decide, by decide, by decide, rfl⟩

/-- C8 as amended: on a cache-first cache miss a cross-origin response is
never written (`src/sw.js` rejects responses whose type is not `basic`,
which every cross-origin response is; the embedded worker checks the origin
itself), and the cross-origin CDN script listed in both precache manifests
is stored by a successful install; only the embedded worker's
stale-while-revalidate routes can store other cross-origin responses. -/
theorem c8_amended_cross_origin_storage :
    (∀ (swO : String) (net : Net) (cs : CacheState) (r : Request),
      r.origin ≠ swO → cachesMatch cs r.url = none →
      ((∀ resp, net r.url = .ok resp → resp.rtype ≠ "basic") →
        (SrcSW.fetchHandler swO net cs r).caches = cs) ∧
      (DocSW.isSWRRoute r = false → (DocSW.fetchHandler swO net cs r).caches = cs)) ∧
    "https://cdn.tailwindcss.com" ∈ DocSW.PRECACHE_ASSETS ∧
    "https://cdn.tailwindcss.com" ∈ SrcSW.ASSETS_TO_CACHE ∧
    strStartsWith "https://cdn.tailwindcss.com" origin0 = false ∧
    entryAt (DocSW.install netOk []).caches DocSW.CACHE_NAME
      "https://cdn.tailwindcss.com" = some respFresh ∧
    entryAt (SrcSW.install netOk []).caches SrcSW.CACHE_NAME
      "https://cdn.tailwindcss.com" = some respFresh := by
  refine ⟨?_, by decide, by decide, by decide, rfl, rfl⟩
  intro swO net cs r hcross hmiss
  constructor
  · intro hbasic
    simp only [SrcSW.fetchHandler, hmiss]
    cases hn : net r.url with
    | err => by_cases hd : r.destination = "document" <;> simp [hd]
    | ok resp =>
      have hb : (resp.rtype != "basic") = true := by
        simpa [bne_iff_ne] using hbasic resp hn
      simp [hb]
  · intro hroute
    simp only [DocSW.fetchHandler, hroute, if_false, Bool.false_eq_true, hmiss]
    cases hn : net r.url with
    | err => by_cases hd : r.destination = "document" <;> simp [hd]
    | ok resp =>
      by_cases hv : (resp.status != 200) = true
      · simp [hv]
      · simp [hv, hcross]

/-- Closed instance of the amended C8: a cross-origin CDN fetch on a cache
miss leaves the cache untouched in both workers. -/
theorem c8_witness :
    (SrcSW.fetchHandler origin0 netCors [] reqCdn).caches = [] ∧
    (DocSW.fetchHandler origin0 netCors [] reqCdn).caches = [] :=
  ⟨(c8_amended_cross_origin_storage.1 origin0 netCors [] reqCdn (by decide) rfl).1
      (fun resp h => by cases h; decide),
   (c8_amended_cross_origin_storage.1 origin0 netCors [] reqCdn (by decide) rfl).2 rfl⟩

/-! ## C9 — what the validator CLI scans and how it exits -/

theorem visited_bibleTranslationFiles (d : String) (files : List (String × Validator.FNode)) :
    (Validator.bibleTranslationFiles d files).2 = Validator.topJsonNames d files := by
  induction files with
  | nil => rfl
  | cons hd rest ih =>
    obtain ⟨fname, fnode⟩ := hd
    simp only [Validator.bibleTranslationFiles, Validator.topJsonNames]
    rcases hr : Validator.bibleTranslationFiles d rest with ⟨e2, v2⟩
    rw [hr] at ih
    replace ih : v2 = Validator.topJsonNames d rest := ih
    by_cases he : strEndsWith fname ".json" = true
    · simp [he, ih]
    · simp [he, ih]

theorem visited_bibleTranslations (ts : List (String × Validator.FNode)) :
    (Validator.bibleTranslations ts).2 = Validator.transJsonNames ts := by
  induction ts with
  | nil => rfl
  | cons hd rest ih =>
    obtain ⟨tname, tnode⟩ := hd
    rcases hr : Validator.bibleTranslations rest with ⟨e2, v2⟩
    rw [hr] at ih
    replace ih : v2 = Validator.transJsonNames rest := ih
    cases tnode with
    | file c =>
      simp [Validator.bibleTranslations, Validator.transJsonNames, hr, ih]
    | dir files =>
      simp [Validator.bibleTranslations, Validator.transJsonNames, hr, ih,
        visited_bibleTranslationFiles]

theorem visited_topLevelJsonFiles (d : String)
    (vf : String → Json → List String × List String)
    (files : List (String × Validator.FNode)) :
    (Validator.topLevelJsonFiles d vf files).2.2 = Validator.topJsonNames d files := by
  induction files with
  | nil => rfl
  | cons hd rest ih =>
    obtain ⟨fname, fnode⟩ := hd
    simp only [Validator.topLevelJsonFiles, Validator.topJsonNames]
    rcases hr : Validator.topLevelJsonFiles d vf rest with ⟨e2, w2, v2⟩
    rw [hr] at ih
    replace ih : v2 = Validator.topJsonNames d rest := ih
    by_cases he : strEndsWith fname ".json" = true
    · simp [he, ih]
    · simp [he, ih]

/-- On the non-fatal path the run is the three validators in sequence, with
exit code 1 exactly when errors accumulated. -/
theorem runValidator_normal (fs : Validator.Fs) (ts : List (String × Validator.FNode))
    (hts : Validator.lookupNode fs "bibles" = some (.dir ts)) :
    Validator.runValidator fs =
      ⟨(Validator.bibleTranslations ts).1 ++
          (Validator.validateXrefsRun fs (Validator.loadAllBibleData fs)).1 ++
          (Validator.validateCommentaryRun fs).1,
        (Validator.validateXrefsRun fs (Validator.loadAllBibleData fs)).2.1 ++
          (Validator.validateCommentaryRun fs).2.1,
        (Validator.bibleTranslations ts).2 ++
          (Validator.validateXrefsRun fs (Validator.loadAllBibleData fs)).2.2 ++
          (Validator.validateCommentaryRun fs).2.2,
        if ((Validator.bibleTranslations ts).1 ++
            (Validator.validateXrefsRun fs (Validator.loadAllBibleData fs)).1 ++
            (Validator.validateCommentaryRun fs).1).isEmpty then 0 else 1⟩ := by
  rcases hbt : Validator.bibleTranslations ts with ⟨e1, v1⟩
  rcases hx : Validator.validateXrefsRun fs (Validator.loadAllBibleData fs) with ⟨e2, w2, v2⟩
  rcases hc : Validator.validateCommentaryRun fs with ⟨e3, w3, v3⟩
  simp [Validator.runValidator, Validator.validateBibleFilesRun, hts, hbt, hx, hc,
    List.append_assoc]

/-- C9 counterexample: the scan is not recursive — a structurally invalid
`.json` file nested one level deeper inside `xrefs/` is collected by the
recursive scan the spec describes but never visited by the run, which exits
0; and a tree without `bibles/` exits 1 although no structural error was
accumulated. -/
theorem c9_counterexample_scan_not_recursive :
    "xrefs/deep/a.json" ∈ Validator.specScan fsC ∧
    "xrefs/deep/a.json" ∉ (Validator.runValidator fsC).visited ∧
    (Validator.runValidator fsC).errors = [] ∧
    (Validator.runValidator fsC).exitCode = 0 ∧
    (Validator.runValidator fsD).errors = [] ∧
    (Validator.runValidator fsD).exitCode = 1 := by
  refine ⟨by decide, by decide, by decide, by decide, by decide, by decide⟩

/-- C9 as amended: when `bibles/` exists as a directory, the run visits
exactly the `.json` entries of the fixed-depth scan — `bibles/` one
translation level deep, `xrefs/` and `theology/` at top level — and exits 0
iff no structural error was accumulated (warnings alone exit 0). -/
theorem c9_amended_fixed_depth_scan_and_exit (fs : Validator.Fs)
    (hb : ∃ ts, Validator.lookupNode fs "bibles" = some (.dir ts)) :
    ((Validator.runValidator fs).exitCode = 0 ↔ (Validator.runValidator fs).errors = []) ∧
    (Validator.runValidator fs).visited = Validator.depthScan fs := by
  obtain ⟨ts, hts⟩ := hb
  rw [runValidator_normal fs ts hts]
  constructor
  · by_cases he : ((Validator.bibleTranslations ts).1 ++
        (Validator.validateXrefsRun fs (Validator.loadAllBibleData fs)).1 ++
        (Validator.validateCommentaryRun fs).1).isEmpty = true
    · simp [he, List.isEmpty_iff.mp he]
    · have hne := fun h => he (List.isEmpty_iff.mpr h)
      simp [he, hne]
  · simp only [Validator.depthScan, hts]
    rw [visited_bibleTranslations]
    have hx : (Validator.validateXrefsRun fs (Validator.loadAllBibleData fs)).2.2 =
        (match Validator.lookupNode fs "xrefs" with
         | some (.dir es) => Validator.topJsonNames "xrefs" es
         | _ => []) := by
      rcases hl : Validator.lookupNode fs "xrefs" with _ | nd
      · simp [Validator.validateXrefsRun, hl]
      · cases nd with
        | file c => simp [Validator.validateXrefsRun, hl]
        | dir es => simp [Validator.validateXrefsRun, hl, visited_topLevelJsonFiles]
    have hc : (Validator.validateCommentaryRun fs).2.2 =
        (match Validator.lookupNode fs "theology" with
         | some (.dir es) => Validator.topJsonNames "theology" es
         | _ => []) := by
      rcases hl : Validator.lookupNode fs "theology" with _ | nd
      · simp [Validator.validateCommentaryRun, hl]
      · cases nd with
        | file c => simp [Validator.validateCommentaryRun, hl]
        | dir es => simp [Validator.validateCommentaryRun, hl, visited_topLevelJsonFiles]
    rw [hx, hc, List.append_assoc]

/-- Closed instance of the amended C9, on a tree whose only finding is a
warning: the run exits 0 and its visit list is the fixed-depth scan. -/
theorem c9_witness :
    ((Validator.runValidator fsW).exitCode = 0 ↔ (Validator.runValidator fsW).errors = []) ∧
    (Validator.runValidator fsW).visited = Validator.depthScan fsW :=
  c9_amended_fixed_depth_scan_and_exit fsW ⟨[], rfl⟩

/-! ## C10 — unparseable references only warn -/

theorem processRef_unparseable (fp : String) (bd : List (String × Json)) (ref : String)
    (h : Validator.parseReference ref = none) :
    Validator.processRef fp bd (Json.str ref) =
      ⟨[], [fp ++ ": Could not parse reference \"" ++ ref ++ "\""], none⟩ := by
  simp [Validator.processRef, h]

theorem foldRefs_unparseable (fp : String) (bd : List (String × Json)) :
    ∀ rs : List String, (∀ s ∈ rs, Validator.parseReference s = none) →
      (Validator.foldRefs fp bd (rs.map Json.str)).errs = [] ∧
      (Validator.foldRefs fp bd (rs.map Json.str)).thrown = none := by
  intro rs
  induction rs with
  | nil => intro h; exact ⟨rfl, rfl⟩
  | cons s rest ih =>
    intro h
    have hs := h s (List.mem_cons_self s rest)
    have hrest := ih fun x hx => h x (List.mem_cons_of_mem s hx)
    simp only [List.map, Validator.foldRefs, Validator.VOut.andThen,
      processRef_unparseable fp bd s hs]
    simp [hrest.1, hrest.2]

theorem foldEntries_unparseable (fp : String) (bd : List (String × Json)) :
    ∀ fields : List (String × Json),
      (∀ p ∈ fields, Validator.keyOk p.1 = true ∧ ∃ rs : List String,
        p.2 = Json.arr (rs.map Json.str) ∧ ∀ s ∈ rs, Validator.parseReference s = none) →
      (Validator.foldEntries fp bd fields).errs = [] ∧
      (Validator.foldEntries fp bd fields).thrown = none := by
  intro fields
  induction fields with
  | nil => intro h; exact ⟨rfl, rfl⟩
  | cons p rest ih =>
    intro h
    obtain ⟨k, v⟩ := p
    obtain ⟨hk, rs, hv, hrs⟩ := h (k, v) (List.mem_cons_self _ rest)
    have hrest := ih fun x hx => h x (List.mem_cons_of_mem _ hx)
    have hone : (Validator.processEntry fp bd k v).errs = [] ∧
        (Validator.processEntry fp bd k v).thrown = none := by
      simp only at hv
      subst hv
      have := foldRefs_unparseable fp bd rs hrs
      simp [Validator.processEntry, hk, this.1, this.2]
    simp only [Validator.foldEntries, Validator.VOut.andThen, hone.2]
    simp [hone.1, hrest.1, hrest.2]

/-- C10: a cross-reference string the reference grammar rejects contributes
exactly one warning and no error; a file whose keys are well-formed and
whose reference strings all fail to parse yields no errors at all; and a
run whose only finding is such a string exits 0 with the warning recorded. -/
theorem c10_unparseable_refs_warn_only :
    (∀ (fp : String) (bd : List (String × Json)) (ref : String),
      Validator.parseReference ref = none →
      Validator.processRef fp bd (Json.str ref) =
        ⟨[], [fp ++ ": Could not parse reference \"" ++ ref ++ "\""], none⟩) ∧
    (∀ (fp : String) (bd : List (String × Json)) (fields : List (String × Json)),
      (∀ p ∈ fields, Validator.keyOk p.1 = true ∧ ∃ rs : List String,
        p.2 = Json.arr (rs.map Json.str) ∧ ∀ s ∈ rs, Validator.parseReference s = none) →
      (Validator.validateXrefsFile fp bd (Json.obj fields)).1 = []) ∧
    (Validator.runValidator fsW).exitCode = 0 ∧
    (Validator.runValidator fsW).warnings =
      ["xrefs/John.json: Could not parse reference \"gibberish\""] := by
  refine ⟨processRef_unparseable, ?_, by decide, by decide⟩
  intro fp bd fields hf
  simp only [Validator.validateXrefsFile]
  by_cases hnew : (truthyO (Json.lookupField fields "reference") &&
      truthyO (Json.lookupField fields "crossReferences")) = true
  · simp [hnew]
  · have h := foldEntries_unparseable fp bd fields hf
    simp [hnew, h.1, h.2]

/-- Closed instance of C10: the concrete unparseable string `gibberish`. -/
theorem c10_witness :
    Validator.processRef "xrefs/John.json" [] (Json.str "gibberish") =
      ⟨[], ["xrefs/John.json: Could not parse reference \"gibberish\""], none⟩ ∧
    (Validator.validateXrefsFile "xrefs/John.json" []
      (Json.obj [("3:16", Json.arr [Json.str "gibberish"])])).1 = [] :=
  ⟨c10_unparseable_refs_warn_only.1 "xrefs/John.json" [] "gibberish" rfl,
   c10_unparseable_refs_warn_only.2.1 "xrefs/John.json" []
     [("3:16", Json.arr [Json.str "gibberish"])]
     (fun p hp => by
       rw [List.mem_singleton] at hp
       subst hp
       exact ⟨rfl, ["gibberish"], rfl, fun s hs => by
         rw [List.mem_singleton] at hs
         subst hs
         rfl⟩)⟩

end BibleStudy
